import Mathlib

/-!
Verification development for the TareToUE5 VS Code extension
(`src/extension.ts`, `src/managers/configManager.ts`).

The TypeScript managers are shallowly embedded as pure Lean functions:
- filesystem and child-process effects become explicit parameters
  (`existsSync : String → Bool`, per-path removal/unlink error oracles,
  and a `ProcRun` record describing one child process's observable
  behaviour: its output events and exit code);
- each manager operation returns the final manager state together with
  the ordered list of webview messages it posts, the ordered list of
  side-effecting actions it performs, and the editor notifications it
  shows;
- JavaScript numbers are modelled as exact rationals (`Rat`).

The `path.win32` behaviour of node (`basename`, `dirname`, `join`,
`normalize`) is modelled for drive-letter paths; UNC `\\server\share`
special-casing, which the extension never exercises, is out of scope.
-/

/-! ### A model of node's `path.win32` string functions -/

/-- Windows path separator test (node accepts both `\` and `/`). -/
def winSep (c : Char) : Bool := c = '\\' || c = '/'

/-- Whether the character list starts with a drive designator such as `C:`. -/
def hasDrive : List Char → Bool
  | a :: b :: _ => a.isAlpha && b = ':'
  | _ => false

/-- `path.win32.basename(s)`: last path component, ignoring a drive prefix
and trailing separators. -/
def winBasename (s : String) : String :=
  let l := s.data
  let body := if hasDrive l then l.drop 2 else l
  let rev := body.reverse.dropWhile winSep
  String.mk ((rev.takeWhile (fun c => !winSep c)).reverse)

/-- `path.win32.basename(s, ext)`: as `winBasename`, but a nonempty `ext`
suffix is removed when the basename ends with it and is not equal to it
(node keeps e.g. `basename('.uproject', '.uproject') = '.uproject'`). -/
def winBasenameExt (s ext : String) : String :=
  let b := winBasename s
  if ext.data ≠ [] ∧ b.data ≠ ext.data ∧ ext.data.isSuffixOf b.data then
    String.mk (b.data.take (b.data.length - ext.data.length))
  else b

/-- `path.win32.dirname(s)` for drive-letter and relative paths. -/
def winDirname (s : String) : String :=
  let l := s.data
  let drive := if hasDrive l then l.take 2 else []
  let body := if hasDrive l then l.drop 2 else l
  let rev := body.reverse.dropWhile winSep
  let rev2 := rev.dropWhile (fun c => !winSep c)
  let rev3 := rev2.dropWhile winSep
  if rev3.isEmpty then
    if rev2.isEmpty then
      if body ≠ [] && rev.isEmpty then String.mk (drive ++ ['\\'])
      else if drive.isEmpty then "." else String.mk drive
    else String.mk (drive ++ ['\\'])
  else String.mk (drive ++ rev3.reverse)

/-- Split a character list on path separators. -/
def splitSepsAux : List Char → List Char → List (List Char)
  | [], cur => [cur.reverse]
  | c :: rest, cur =>
    if winSep c then cur.reverse :: splitSepsAux rest []
    else splitSepsAux rest (c :: cur)

/-- Components of a path body, split at separators (may contain empties). -/
def splitSeps (l : List Char) : List (List Char) := splitSepsAux l []

/-- Resolve `.` and `..` components as node's `normalizeString` does:
`..` pops a previous component, is dropped at the root of an absolute
path, and is kept at the head of a relative path. -/
def normParts (abs : Bool) : List (List Char) → List (List Char) → List (List Char)
  | [], acc => acc.reverse
  | p :: rest, acc =>
    if p = [] || p = ['.'] then normParts abs rest acc
    else if p = ['.', '.'] then
      match acc with
      | q :: accRest =>
        if q = ['.', '.'] then normParts abs rest (p :: q :: accRest)
        else normParts abs rest accRest
      | [] => if abs then normParts abs rest [] else normParts abs rest [p]
    else normParts abs rest (p :: acc)

/-- `path.win32.normalize(s)` for drive-letter paths: resolves `.`/`..`,
collapses separators to `\`, keeps a trailing separator, and yields `.`
for an empty relative result. -/
def winNormalize (s : String) : String :=
  let l := s.data
  let drive := if hasDrive l then l.take 2 else []
  let body := if hasDrive l then l.drop 2 else l
  let abs := match body with | c :: _ => winSep c | [] => false
  let trail := match body.reverse with | c :: _ => winSep c | [] => false
  let comps := normParts abs (splitSeps body) []
  let tail0 := List.intercalate ['\\'] comps
  let tail1 := if tail0 = [] && !abs then ['.'] else tail0
  let tail2 := if tail1 ≠ [] && trail then tail1 ++ ['\\'] else tail1
  String.mk (drive ++ (if abs then ['\\'] else []) ++ tail2)

/-- `path.win32.join(...)`: non-empty segments joined with `\` and
normalized; all-empty input yields `.`. -/
def winJoinList (parts : List String) : String :=
  let ps := parts.filter (fun s => s != "")
  if ps.isEmpty then "." else winNormalize (String.intercalate "\\" ps)

/-- Binary `path.win32.join`. -/
def winJoin (a b : String) : String := winJoinList [a, b]

/-! ### ConfigManager (`src/managers/configManager.ts`) -/

/-- The flat configuration record held by `ConfigManager`. -/
structure BuildConfig where
  uePath : String
  projectPath : String
  buildConfiguration : String
deriving DecidableEq, Repr

/-- Result shape of `ConfigManager.validateConfig`:
`{ valid: boolean; error?: string }`. -/
structure ValidationResult where
  valid : Bool
  error : Option String
deriving DecidableEq, Repr

/-- `ConfigManager.validateConfig`, with `fs.existsSync` abstracted as
`ex`.  Empty strings are falsy in JavaScript, so `!uePath` is `uePath = ""`. -/
def validateConfig (ex : String → Bool) (c : BuildConfig) : ValidationResult :=
  if c.uePath = "" then ⟨false, some "UE5 编辑器路径未设置"⟩
  else if ex c.uePath = false then ⟨false, some "UE5 编辑器路径不存在"⟩
  else if c.projectPath = "" then ⟨false, some "UE 项目路径未设置"⟩
  else if ex c.projectPath = false then ⟨false, some "UE 项目路径不存在"⟩
  else ⟨true, none⟩

/-- `ConfigManager.getProjectDir`: `path.dirname(projectPath)`. -/
def getProjectDir (c : BuildConfig) : String := winDirname c.projectPath

/-- `ConfigManager.getProjectName`: `path.basename(projectPath, '.uproject')`. -/
def getProjectName (c : BuildConfig) : String := winBasenameExt c.projectPath ".uproject"

/-- `ConfigManager.getSolutionPath`: `path.join(projectDir, projectName + '.sln')`. -/
def getSolutionPath (c : BuildConfig) : String :=
  winJoin (getProjectDir c) (getProjectName c ++ ".sln")

/-- `ConfigManager.getUBTPath`: four `dirname`s up from the editor
executable, then `Engine/Build/BatchFiles/Build.bat`.  The build and
debug managers recompute this same path inline. -/
def getUBTPath (c : BuildConfig) : String :=
  winJoinList
    [winDirname (winDirname (winDirname (winDirname c.uePath))),
     "Engine", "Build", "BatchFiles", "Build.bat"]

/-! ### Observable behaviour: messages, actions, process runs -/

/-- Webview messages posted by the managers (`webview.postMessage`). -/
inductive Msg where
  | buildStarted
  | buildProgress (progress : Rat) (message : String)
  | buildSuccess
  | buildFailed (error : String)
  | buildCancelled
  | debugStarted
  | debugSuccess
  | debugFailed (error : String)
  | debugCancelled
deriving DecidableEq, Repr

/-- Side-effecting actions performed by the managers, in program order. -/
inductive Act where
  | rmDir (path : String)
  | unlink (path : String)
  | execBat (bat : String) (args : List String) (cwd : String)
  | spawnDetached (command : String) (cwd : String)
  | execCmd (command : String) (cwd : String)
  | taskkill (pid : Nat)
deriving DecidableEq, Repr

/-- One observable event of a child process: a stdout chunk together with
the elapsed milliseconds since spawn when it arrived, or a stderr chunk. -/
inductive OutEvent where
  | stdout (text : String) (elapsed : Nat)
  | stderr (text : String)
deriving DecidableEq, Repr

/-- Observable behaviour of one child process: its events followed by the
exit code delivered to the `close` handler. -/
structure ProcRun where
  events : List OutEvent
  exitCode : Int
deriving DecidableEq, Repr

/-- Terminal outcome of `_executeProcess` (promise resolved or rejected). -/
inductive ProcOutcome where
  | ok
  | failed (msg : String)
deriving DecidableEq, Repr

/-- Concatenated stderr text captured during a process run. -/
def concatStderr (evs : List OutEvent) : String :=
  evs.foldl (fun acc e => match e with | OutEvent.stderr t => acc ++ t | _ => acc) ""

/-- The rejection text built in the `close` handlers:
`` `进程退出，代码: ${code}\n${stderr}` ``. -/
def procErrorText (code : Int) (stderrText : String) : String :=
  "进程退出，代码: " ++ toString code ++ "\n" ++ stderrText

/-! ### Progress parsing (`_parseProgress`, `_getProgressMessage`) -/

/-- Decimal value of a digit-character list (as JS `parseInt(_, 10)`). -/
def digitsVal (ds : List Char) : Nat :=
  ds.foldl (fun n c => n * 10 + (c.toNat - '0'.toNat)) 0

/-- Scanner for the first match of the regex `(\d+)%`: the accumulator
holds the (reversed) digit run immediately preceding the scan point. -/
def parseProgressAux : List Char → List Char → Option Nat
  | [], _ => none
  | c :: rest, run =>
    if c = '%' then
      match run with
      | [] => parseProgressAux rest []
      | _ => some (digitsVal run.reverse)
    else if c.isDigit then parseProgressAux rest (c :: run)
    else parseProgressAux rest []

/-- `_parseProgress`: value of the first `NN%` marker in the chunk, else 0. -/
def parseProgress (text : String) : Nat :=
  match parseProgressAux text.data [] with
  | some n => n
  | none => 0

/-- Whether `sub` occurs inside `l` (JS `String.includes`). -/
def charsHaveInfix : List Char → List Char → Bool
  | l@(_ :: rest), sub => sub.isPrefixOf l || charsHaveInfix rest sub
  | [], sub => sub.isEmpty

/-- JS `text.includes(sub)`. -/
def strIncludes (text sub : String) : Bool := charsHaveInfix text.data sub.data

/-- `_getProgressMessage`: phase label chosen by substring priority
("Compiling" > "Linking" > "Generating" > fallback); the numeric progress
argument is unused in the source. -/
def getProgressMessage (text : String) (_p : Rat) : String :=
  if strIncludes text "Compiling" then "正在编译..."
  else if strIncludes text "Linking" then "正在链接..."
  else if strIncludes text "Generating" then "正在生成..."
  else "正在处理..."

/-! ### `BuildManager._executeProcess` (`src/extension.ts`) -/

/-- One stdout chunk in `BuildManager._executeProcess`: a higher `NN%`
marker raises the progress and is posted verbatim; otherwise, while
`0 < currentProgress < 100`, progress is extrapolated from elapsed time
against the assumed duration `estimatedDuration = 300000` ms and capped at
95.  Returns the new `currentProgress` and the posted messages. -/
def bmChunk (cp : Rat) (text : String) (elapsed : Nat) : Rat × List Msg :=
  let p : Rat := (parseProgress text : Nat)
  if cp < p then
    (p, [Msg.buildProgress p (getProgressMessage text p)])
  else if 0 < cp ∧ cp < 100 then
    let est := min 95 (40 + ((elapsed : Rat) / 300000) * 55)
    if cp < est then (est, [Msg.buildProgress est (getProgressMessage text est)])
    else (cp, [])
  else (cp, [])

/-- Fold of `bmChunk` over the stdout events of a run (stderr chunks only
accumulate text and post nothing). -/
def bmProcessEvents : List OutEvent → Rat → List Msg
  | [], _ => []
  | OutEvent.stdout t e :: rest, cp =>
    (bmChunk cp t e).2 ++ bmProcessEvents rest (bmChunk cp t e).1
  | OutEvent.stderr _ :: rest, cp => bmProcessEvents rest cp

/-- `BuildManager._executeProcess`: progress messages from the output
events, then resolution on exit code 0 or rejection carrying the captured
stderr text. -/
def bmExecuteProcess (run : ProcRun) : List Msg × ProcOutcome :=
  (bmProcessEvents run.events 0,
   if run.exitCode = 0 then ProcOutcome.ok
   else ProcOutcome.failed (procErrorText run.exitCode (concatStderr run.events)))

/-! ### `DebugManager._executeProcess` -/

/-- One stdout chunk in `DebugManager._executeProcess`: a higher marker is
posted rescaled as `10 + progress * 0.4`; there is no time-based
extrapolation.  (`0.4` is exact in this rational model.) -/
def dmChunk (cp : Rat) (text : String) : Rat × List Msg :=
  let p : Rat := (parseProgress text : Nat)
  if cp < p then
    (p, [Msg.buildProgress (10 + p * (4 / 10)) (getProgressMessage text p)])
  else (cp, [])

/-- Fold of `dmChunk` over the stdout events of a run. -/
def dmProcessEvents : List OutEvent → Rat → List Msg
  | [], _ => []
  | OutEvent.stdout t _ :: rest, cp =>
    (dmChunk cp t).2 ++ dmProcessEvents rest (dmChunk cp t).1
  | OutEvent.stderr _ :: rest, cp => dmProcessEvents rest cp

/-- `DebugManager._executeProcess`: same exit-code contract as the build
manager's. -/
def dmExecuteProcess (run : ProcRun) : List Msg × ProcOutcome :=
  (dmProcessEvents run.events 0,
   if run.exitCode = 0 then ProcOutcome.ok
   else ProcOutcome.failed (procErrorText run.exitCode (concatStderr run.events)))

/-! ### Manager states and operation results -/

/-- `BuildManager`'s mutable fields: `_isBuilding` and `_buildProcess`
(the live child-process handle, identified by its pid). -/
structure BMState where
  isBuilding : Bool
  buildProcess : Option Nat
deriving DecidableEq, Repr

/-- `DebugManager`'s mutable fields: `_isDebugging` and `_debugProcess`. -/
structure DMState where
  isDebugging : Bool
  debugProcess : Option Nat
deriving DecidableEq, Repr

/-- Result of one `BuildManager` operation: final state, webview messages
in order, side-effecting actions in order, and editor notifications. -/
structure OpResult where
  state : BMState
  msgs : List Msg
  actions : List Act
  notify : List String
deriving DecidableEq, Repr

/-- Result of one `DebugManager` operation. -/
structure DMOpResult where
  state : DMState
  msgs : List Msg
  actions : List Act
  notify : List String
deriving DecidableEq, Repr

/-- Arguments of the `_generateProjectFiles` invocation of `Build.bat`
(note the hard-coded `Development` flavor in the source). -/
def genModeArgs (c : BuildConfig) : List String :=
  [getProjectName c ++ "Editor", "Win64", "Development",
   "-Project=\"" ++ c.projectPath ++ "\"", "-WaitMutex", "-FromMsBuild",
   "-architecture=x64", "-GenerateProjectFiles"]

/-- Arguments of the `_buildProject` invocations of `Build.bat` (identical
in `BuildManager` and `DebugManager`). -/
def buildModeArgs (c : BuildConfig) : List String :=
  [getProjectName c ++ "Editor", "Win64", c.buildConfiguration,
   "-Project=\"" ++ c.projectPath ++ "\"", "-WaitMutex", "-FromMsBuild",
   "-architecture=x64"]

/-! ### `BuildManager` operations -/

/-- `BuildManager.cancelBuild`: kills the tracked process tree and
notifies if a handle is set, otherwise does nothing at all. -/
def cancelBuild (st : BMState) : OpResult :=
  match st.buildProcess with
  | some pid => ⟨⟨false, none⟩, [Msg.buildCancelled], [Act.taskkill pid], ["操作已取消"]⟩
  | none => ⟨st, [], [], []⟩

/-- `BuildManager.cleanSolution`.  `ex` is `fs.existsSync`; `rmE p` is the
error (if any) with which `fs.promises.rm(p, {recursive, force,
maxRetries: 3})` ultimately rejects. -/
def cleanSolution (ex : String → Bool) (rmE : String → Option String)
    (c : BuildConfig) (st : BMState) : OpResult :=
  if st.isBuilding then ⟨st, [], [], ["已有操作正在进行中"]⟩ else
  if (validateConfig ex c).valid = false then
    ⟨st, [], [], [(validateConfig ex c).error.getD "配置验证失败"]⟩
  else
    let pd := getProjectDir c
    let iDir := winJoin pd "Intermediate"
    let bDir := winJoin pd "Binaries"
    let sDir := winJoinList [pd, "Saved", "StagedBuilds"]
    let fail : List Msg → List Act → String → OpResult := fun ms acts e =>
      ⟨⟨false, none⟩, ms ++ [Msg.buildFailed e], acts, ["清理失败! 查看输出面板了解详情"]⟩
    let stepS : List Msg → List Act → OpResult := fun ms acts =>
      if ex sDir then
        match rmE sDir with
        | some e => fail (ms ++ [Msg.buildProgress 85 "正在删除 StagedBuilds..."])
            (acts ++ [Act.rmDir sDir]) e
        | none =>
          ⟨⟨false, none⟩,
           ms ++ [Msg.buildProgress 85 "正在删除 StagedBuilds...",
                  Msg.buildProgress 100 "正在清理...", Msg.buildSuccess],
           acts ++ [Act.rmDir sDir], ["清理完成"]⟩
      else
        ⟨⟨false, none⟩, ms ++ [Msg.buildProgress 100 "正在清理...", Msg.buildSuccess],
         acts, ["清理完成"]⟩
    let stepB : List Msg → List Act → OpResult := fun ms acts =>
      if ex bDir then
        match rmE bDir with
        | some e => fail (ms ++ [Msg.buildProgress 60 "正在删除 Binaries..."])
            (acts ++ [Act.rmDir bDir]) e
        | none => stepS
            (ms ++ [Msg.buildProgress 60 "正在删除 Binaries...", Msg.buildProgress 70 "正在清理..."])
            (acts ++ [Act.rmDir bDir])
      else stepS (ms ++ [Msg.buildProgress 70 "正在清理..."]) acts
    let m0 : List Msg := [Msg.buildStarted, Msg.buildProgress 10 "正在清理..."]
    if ex iDir then
      match rmE iDir with
      | some e => fail (m0 ++ [Msg.buildProgress 20 "正在删除 Intermediate..."])
          [Act.rmDir iDir] e
      | none => stepB
          (m0 ++ [Msg.buildProgress 20 "正在删除 Intermediate...", Msg.buildProgress 40 "正在清理..."])
          [Act.rmDir iDir]
    else stepB (m0 ++ [Msg.buildProgress 40 "正在清理..."]) []

/-- The manager states at the `await fs.promises.rm` suspension points of
`cleanSolution` (the only awaits in a clean run): at each of them
`_isBuilding` is `true` and `_buildProcess` is whatever it was at entry —
the clean path never assigns the process handle.  This over-approximates
reachability: a removal point is listed whenever its directory exists,
even if an earlier removal would have failed first. -/
def cleanAwaitStates (ex : String → Bool) (c : BuildConfig) (st : BMState) : List BMState :=
  if st.isBuilding then []
  else if (validateConfig ex c).valid = false then []
  else
    let pd := getProjectDir c
    let running : BMState := ⟨true, st.buildProcess⟩
    (if ex (winJoin pd "Intermediate") then [running] else []) ++
    (if ex (winJoin pd "Binaries") then [running] else []) ++
    (if ex (winJoinList [pd, "Saved", "StagedBuilds"]) then [running] else [])

/-- `BuildManager.generateSolution`: delete the solution file if present,
then run `Build.bat … -GenerateProjectFiles`.  `unlE p` is the error (if
any) thrown by `fs.unlinkSync(p)`. -/
def generateSolution (ex : String → Bool) (unlE : String → Option String)
    (run : ProcRun) (c : BuildConfig) (st : BMState) : OpResult :=
  if st.isBuilding then ⟨st, [], [], ["已有操作正在进行中"]⟩ else
  if (validateConfig ex c).valid = false then
    ⟨st, [], [], [(validateConfig ex c).error.getD "配置验证失败"]⟩
  else
    let pd := getProjectDir c
    let sln := getSolutionPath c
    let ubt := getUBTPath c
    let fail : List Msg → List Act → String → OpResult := fun ms acts e =>
      ⟨⟨false, none⟩, ms ++ [Msg.buildFailed e], acts, ["操作失败! 查看输出面板了解详情"]⟩
    let stepGen : List Msg → List Act → OpResult := fun ms acts =>
      let ms := ms ++ [Msg.buildProgress 35 "正在生成项目文件..."]
      if ex ubt = false then fail ms acts ("Build.bat not found at: " ++ ubt)
      else
        let acts := acts ++ [Act.execBat ubt (genModeArgs c) pd]
        let ms := ms ++ (bmExecuteProcess run).1
        match (bmExecuteProcess run).2 with
        | ProcOutcome.failed e => fail ms acts e
        | ProcOutcome.ok =>
          ⟨⟨false, none⟩,
           ms ++ [Msg.buildProgress 60 "正在生成项目文件...", Msg.buildSuccess],
           acts, ["生成解决方案完成"]⟩
    let m0 : List Msg := [Msg.buildStarted]
    if ex sln then
      match unlE sln with
      | some e => fail m0 [Act.unlink sln] e
      | none => stepGen m0 [Act.unlink sln]
    else stepGen m0 []

/-- `BuildManager.regenerateSolution`: `_cleanSolutionInternal`, then
solution-file deletion, then `_generateProjectFiles`, then
`_buildProject`; the `try` block aborts at the first thrown error. -/
def regenerateSolution (ex : String → Bool) (rmE unlE : String → Option String)
    (genRun buildRun : ProcRun) (c : BuildConfig) (st : BMState) : OpResult :=
  if st.isBuilding then ⟨st, [], [], ["已有操作正在进行中"]⟩ else
  if (validateConfig ex c).valid = false then
    ⟨st, [], [], [(validateConfig ex c).error.getD "配置验证失败"]⟩
  else
    let pd := getProjectDir c
    let iDir := winJoin pd "Intermediate"
    let bDir := winJoin pd "Binaries"
    let sDir := winJoinList [pd, "Saved", "StagedBuilds"]
    let sln := getSolutionPath c
    let bat := getUBTPath c
    let fail : List Msg → List Act → String → OpResult := fun ms acts e =>
      ⟨⟨false, none⟩, ms ++ [Msg.buildFailed e], acts, ["操作失败! 查看输出面板了解详情"]⟩
    let stepBuild : List Msg → List Act → OpResult := fun ms acts =>
      let ms := ms ++ [Msg.buildProgress 65 "正在编译..."]
      if ex bat = false then fail ms acts ("Build.bat not found at: " ++ bat)
      else
        let acts := acts ++ [Act.execBat bat (buildModeArgs c) pd]
        let ms := ms ++ (bmExecuteProcess buildRun).1
        match (bmExecuteProcess buildRun).2 with
        | ProcOutcome.failed e => fail ms acts e
        | ProcOutcome.ok =>
          ⟨⟨false, none⟩,
           ms ++ [Msg.buildProgress 100 "正在编译...", Msg.buildSuccess],
           acts, ["重新生成解决方案完成"]⟩
    let stepGen : List Msg → List Act → OpResult := fun ms acts =>
      let ms := ms ++ [Msg.buildProgress 35 "正在生成项目文件..."]
      if ex bat = false then fail ms acts ("Build.bat not found at: " ++ bat)
      else
        let acts := acts ++ [Act.execBat bat (genModeArgs c) pd]
        let ms := ms ++ (bmExecuteProcess genRun).1
        match (bmExecuteProcess genRun).2 with
        | ProcOutcome.failed e => fail ms acts e
        | ProcOutcome.ok => stepBuild (ms ++ [Msg.buildProgress 60 "正在生成项目文件..."]) acts
    let stepSln : List Msg → List Act → OpResult := fun ms acts =>
      if ex sln then
        match unlE sln with
        | some e => fail ms (acts ++ [Act.unlink sln]) e
        | none => stepGen ms (acts ++ [Act.unlink sln])
      else stepGen ms acts
    let stepS : List Msg → List Act → OpResult := fun ms acts =>
      if ex sDir then
        match rmE sDir with
        | some e => fail ms (acts ++ [Act.rmDir sDir]) e
        | none => stepSln (ms ++ [Msg.buildProgress 30 "正在清理..."]) (acts ++ [Act.rmDir sDir])
      else stepSln (ms ++ [Msg.buildProgress 30 "正在清理..."]) acts
    let stepB : List Msg → List Act → OpResult := fun ms acts =>
      if ex bDir then
        match rmE bDir with
        | some e => fail (ms ++ [Msg.buildProgress 25 "正在删除 Binaries..."])
            (acts ++ [Act.rmDir bDir]) e
        | none => stepS
            (ms ++ [Msg.buildProgress 25 "正在删除 Binaries...", Msg.buildProgress 28 "正在清理..."])
            (acts ++ [Act.rmDir bDir])
      else stepS (ms ++ [Msg.buildProgress 28 "正在清理..."]) acts
    let m0 : List Msg := [Msg.buildStarted, Msg.buildProgress 10 "正在清理..."]
    if ex iDir then
      match rmE iDir with
      | some e => fail (m0 ++ [Msg.buildProgress 15 "正在删除 Intermediate..."])
          [Act.rmDir iDir] e
      | none => stepB
          (m0 ++ [Msg.buildProgress 15 "正在删除 Intermediate...", Msg.buildProgress 20 "正在清理..."])
          [Act.rmDir iDir]
    else stepB (m0 ++ [Msg.buildProgress 20 "正在清理..."]) []

/-! ### `DebugManager` operations -/

/-- `DebugManager.startDebug`: compile via `Build.bat`, then spawn the
editor detached with `-debug`; the handle is dropped immediately after
launch. -/
def startDebug (ex : String → Bool) (run : ProcRun)
    (c : BuildConfig) (st : DMState) : DMOpResult :=
  if st.isDebugging then ⟨st, [], [], ["已有操作正在进行中"]⟩ else
  if (validateConfig ex c).valid = false then
    ⟨st, [], [], [(validateConfig ex c).error.getD "配置验证失败"]⟩
  else
    let pd := getProjectDir c
    let bat := getUBTPath c
    let fail : List Msg → List Act → String → DMOpResult := fun ms acts e =>
      ⟨⟨false, none⟩, ms ++ [Msg.debugFailed e], acts, ["启动失败! 查看输出面板了解详情"]⟩
    let m0 : List Msg := [Msg.debugStarted, Msg.buildProgress 10 "正在编译..."]
    if ex bat = false then fail m0 [] ("Build.bat not found at: " ++ bat)
    else
      let acts := [Act.execBat bat (buildModeArgs c) pd]
      let ms := m0 ++ (dmExecuteProcess run).1
      match (dmExecuteProcess run).2 with
      | ProcOutcome.failed e => fail ms acts e
      | ProcOutcome.ok =>
        let ms := ms ++ [Msg.buildProgress 50 "正在启动调试..."]
        if c.uePath = "" ∨ ex c.uePath = false then
          fail ms acts "UE5 编辑器路径未设置或不存在"
        else
          ⟨⟨false, none⟩,
           ms ++ [Msg.buildProgress 100 "调试已启动", Msg.debugSuccess],
           acts ++ [Act.spawnDetached
             ("\"" ++ c.uePath ++ "\" \"" ++ c.projectPath ++ "\" -debug") pd],
           ["调试已启动"]⟩

/-- `DebugManager.startWithoutDebug`: compile, then `exec` the editor
without `-debug` and without retaining a handle. -/
def startWithoutDebug (ex : String → Bool) (run : ProcRun)
    (c : BuildConfig) (st : DMState) : DMOpResult :=
  if st.isDebugging then ⟨st, [], [], ["已有操作正在进行中"]⟩ else
  if (validateConfig ex c).valid = false then
    ⟨st, [], [], [(validateConfig ex c).error.getD "配置验证失败"]⟩
  else
    let pd := getProjectDir c
    let bat := getUBTPath c
    let fail : List Msg → List Act → String → DMOpResult := fun ms acts e =>
      ⟨⟨false, none⟩, ms ++ [Msg.debugFailed e], acts, ["启动失败! 查看输出面板了解详情"]⟩
    let m0 : List Msg := [Msg.debugStarted, Msg.buildProgress 10 "正在编译..."]
    if ex bat = false then fail m0 [] ("Build.bat not found at: " ++ bat)
    else
      let acts := [Act.execBat bat (buildModeArgs c) pd]
      let ms := m0 ++ (dmExecuteProcess run).1
      match (dmExecuteProcess run).2 with
      | ProcOutcome.failed e => fail ms acts e
      | ProcOutcome.ok =>
        let ms := ms ++ [Msg.buildProgress 50 "正在启动项目..."]
        if c.uePath = "" ∨ ex c.uePath = false then
          fail ms acts "UE5 编辑器路径未设置或不存在"
        else
          ⟨⟨false, none⟩,
           ms ++ [Msg.buildProgress 100 "项目已启动", Msg.debugSuccess],
           acts ++ [Act.execCmd ("\"" ++ c.uePath ++ "\" \"" ++ c.projectPath ++ "\"") pd],
           ["项目已启动"]⟩

/-- `DebugManager.launchProject`: no busy guard and no run-state change —
it checks the two paths directly and fires off the editor. -/
def launchProject (ex : String → Bool) (c : BuildConfig) (st : DMState) : DMOpResult :=
  if c.projectPath = "" ∨ ex c.projectPath = false then
    ⟨st, [], [], ["项目路径未设置或不存在"]⟩
  else if c.uePath = "" ∨ ex c.uePath = false then
    ⟨st, [], [], ["UE5 编辑器路径未设置或不存在"]⟩
  else
    ⟨st, [],
     [Act.execCmd ("\"" ++ c.uePath ++ "\" \"" ++ c.projectPath ++ "\"") (getProjectDir c)],
     ["项目已启动"]⟩

/-! ### Shared concrete fixtures for witnesses and counterexamples -/

/-- Environment in which every path exists. -/
def allPaths : String → Bool := fun _ => true

/-- Environment in which no filesystem operation fails. -/
def noFail : String → Option String := fun _ => none

/-- A representative valid configuration. -/
def cfg0 : BuildConfig :=
  ⟨"C:\\UE\\Engine\\Binaries\\Win64\\UnrealEditor.exe",
   "C:\\Proj\\Game.uproject", "Development"⟩

/-- `cfg0` with a non-default build flavor. -/
def cfgShip : BuildConfig :=
  ⟨"C:\\UE\\Engine\\Binaries\\Win64\\UnrealEditor.exe",
   "C:\\Proj\\Game.uproject", "Shipping"⟩

/-- Idle build-manager state. -/
def idleBM : BMState := ⟨false, none⟩

/-- Idle debug-manager state. -/
def idleDM : DMState := ⟨false, none⟩

/-- Debug-manager state with a run in flight. -/
def busyDM : DMState := ⟨true, none⟩

/-- A successful process run that emits a single low `5%` marker. -/
def runMarks5 : ProcRun := ⟨[OutEvent.stdout "5%" 1000], 0⟩

/-- A silent successful process run. -/
def runOk : ProcRun := ⟨[], 0⟩

/-- A failing process run with stderr text. -/
def runFail : ProcRun := ⟨[OutEvent.stderr "err"], 1⟩

/-- The progress values carried by the `buildProgress` messages of a
message list, in posting order. -/
def progressValues (ms : List Msg) : List Rat :=
  ms.filterMap (fun m => match m with | Msg.buildProgress p _ => some p | _ => none)

/-! ### Claim theorems -/

/-- C2: `validateConfig` returns valid, or else the first failing check in
the fixed order — engine path unset, engine path nonexistent, project path
unset, project path nonexistent — each with its specific reason, with the
engine-path checks always performed before the project-path checks. -/
theorem validateConfig_first_failure_order (ex : String → Bool) (c : BuildConfig) :
    (c.uePath = "" → validateConfig ex c = ⟨false, some "UE5 编辑器路径未设置"⟩)
  ∧ (c.uePath ≠ "" → ex c.uePath = false →
      validateConfig ex c = ⟨false, some "UE5 编辑器路径不存在"⟩)
  ∧ (c.uePath ≠ "" → ex c.uePath = true → c.projectPath = "" →
      validateConfig ex c = ⟨false, some "UE 项目路径未设置"⟩)
  ∧ (c.uePath ≠ "" → ex c.uePath = true → c.projectPath ≠ "" → ex c.projectPath = false →
      validateConfig ex c = ⟨false, some "UE 项目路径不存在"⟩)
  ∧ (c.uePath ≠ "" → ex c.uePath = true → c.projectPath ≠ "" → ex c.projectPath = true →
      validateConfig ex c = ⟨true, none⟩) := by
  refine ⟨?_, ?_, ?_, ?_, ?_⟩ <;> intros <;> simp_all [validateConfig]

/-- Witness for C2: with nothing configured, the engine-path-unset reason
is the one reported (engine checks come first). -/
theorem validateConfig_first_failure_order_witness :
    validateConfig (fun _ => false) ⟨"", "", "Development"⟩ =
      ⟨false, some "UE5 编辑器路径未设置"⟩ :=
  (validateConfig_first_failure_order (fun _ => false) ⟨"", "", "Development"⟩).1 rfl

/-- C3: while a run is in flight, every run-starting operation of either
manager is rejected with the busy warning, posts nothing, performs no
action, and leaves the manager state — hence the in-flight run — exactly
as it was; so at most one run is ever active per manager.  (The auxiliary
`launchProject` entry point starts no run and also leaves the run state
untouched.) -/
theorem busy_rejection_preserves_state (ex : String → Bool)
    (rmE unlE : String → Option String) (run genRun buildRun : ProcRun)
    (c : BuildConfig) (stB : BMState) (stD : DMState)
    (hB : stB.isBuilding = true) (hD : stD.isDebugging = true) :
    cleanSolution ex rmE c stB = ⟨stB, [], [], ["已有操作正在进行中"]⟩
  ∧ generateSolution ex unlE run c stB = ⟨stB, [], [], ["已有操作正在进行中"]⟩
  ∧ regenerateSolution ex rmE unlE genRun buildRun c stB = ⟨stB, [], [], ["已有操作正在进行中"]⟩
  ∧ startDebug ex run c stD = ⟨stD, [], [], ["已有操作正在进行中"]⟩
  ∧ startWithoutDebug ex run c stD = ⟨stD, [], [], ["已有操作正在进行中"]⟩
  ∧ (launchProject ex c stD).state = stD := by
  refine ⟨?_, ?_, ?_, ?_, ?_, ?_⟩ <;>
    simp [cleanSolution, generateSolution, regenerateSolution, startDebug,
      startWithoutDebug, launchProject, hB, hD] <;>
    split_ifs <;> rfl

/-- Witness for C3: a concrete busy build manager rejects `cleanSolution`. -/
theorem busy_rejection_preserves_state_witness :
    cleanSolution allPaths noFail cfg0 ⟨true, none⟩ =
      ⟨⟨true, none⟩, [], [], ["已有操作正在进行中"]⟩ :=
  (busy_rejection_preserves_state allPaths noFail noFail runOk runOk runOk cfg0
    ⟨true, none⟩ busyDM rfl rfl).1

/-- C6: in both `_executeProcess` implementations, exit code 0 is the only
outcome resolved as success, and any non-zero exit code rejects with an
error that carries the captured stderr text. -/
theorem exit_code_zero_only_success (run : ProcRun) :
    ((bmExecuteProcess run).2 = ProcOutcome.ok ↔ run.exitCode = 0)
  ∧ (run.exitCode ≠ 0 →
      (bmExecuteProcess run).2 =
        ProcOutcome.failed (procErrorText run.exitCode (concatStderr run.events)))
  ∧ ((dmExecuteProcess run).2 = ProcOutcome.ok ↔ run.exitCode = 0)
  ∧ (run.exitCode ≠ 0 →
      (dmExecuteProcess run).2 =
        ProcOutcome.failed (procErrorText run.exitCode (concatStderr run.events))) := by
  unfold bmExecuteProcess dmExecuteProcess
  by_cases h : run.exitCode = 0 <;> simp [h]

/-- Witness for C6: a concrete run exiting with code 1 is rejected with
its stderr text. -/
theorem exit_code_zero_only_success_witness :
    (bmExecuteProcess runFail).2 =
      ProcOutcome.failed (procErrorText runFail.exitCode (concatStderr runFail.events)) :=
  (exit_code_zero_only_success runFail).2.1 (by decide)

/-- C7: with an invalid configuration, each of the five operations reports
the validation reason and returns before any side effect: no message is
posted, no action (deletion or process spawn) is performed, and the
manager state stays exactly the idle state it was in. -/
theorem invalid_config_no_side_effects (ex : String → Bool)
    (rmE unlE : String → Option String) (run genRun buildRun : ProcRun)
    (c : BuildConfig) (stB : BMState) (stD : DMState)
    (hB : stB.isBuilding = false) (hD : stD.isDebugging = false)
    (hv : (validateConfig ex c).valid = false) :
    cleanSolution ex rmE c stB =
      ⟨stB, [], [], [(validateConfig ex c).error.getD "配置验证失败"]⟩
  ∧ generateSolution ex unlE run c stB =
      ⟨stB, [], [], [(validateConfig ex c).error.getD "配置验证失败"]⟩
  ∧ regenerateSolution ex rmE unlE genRun buildRun c stB =
      ⟨stB, [], [], [(validateConfig ex c).error.getD "配置验证失败"]⟩
  ∧ startDebug ex run c stD =
      ⟨stD, [], [], [(validateConfig ex c).error.getD "配置验证失败"]⟩
  ∧ startWithoutDebug ex run c stD =
      ⟨stD, [], [], [(validateConfig ex c).error.getD "配置验证失败"]⟩ := by
  refine ⟨?_, ?_, ?_, ?_, ?_⟩ <;>
    simp [cleanSolution, generateSolution, regenerateSolution, startDebug,
      startWithoutDebug, hB, hD, hv]

/-- Witness for C7: with an empty configuration, `cleanSolution` reports
the engine-path reason and performs nothing. -/
theorem invalid_config_no_side_effects_witness :
    cleanSolution allPaths noFail ⟨"", "", "Development"⟩ idleBM =
      ⟨idleBM, [], [],
       [(validateConfig allPaths ⟨"", "", "Development"⟩).error.getD "配置验证失败"]⟩ :=
  (invalid_config_no_side_effects allPaths noFail noFail runOk runOk runOk
    ⟨"", "", "Development"⟩ idleBM idleDM rfl rfl (by decide)).1

/-- C9: `cancelBuild` with no active child process is a complete no-op:
no message, no action, no notification, state untouched. -/
theorem cancelBuild_no_active_process_noop (st : BMState) (h : st.buildProcess = none) :
    cancelBuild st = ⟨st, [], [], []⟩ := by
  unfold cancelBuild
  rw [h]

/-- Witness for C9 at the idle state. -/
theorem cancelBuild_no_active_process_noop_witness :
    cancelBuild idleBM = ⟨idleBM, [], [], []⟩ :=
  cancelBuild_no_active_process_noop idleBM rfl

/-- Modelled from the spec: "projectName = basename(projectPath) with
extension stripped" — the extension being the final dot-suffix of the
basename as `path.extname` computes it (a leading-dot-only name has no
extension).  This is the spec-side reading compared against the source's
`getProjectName`. -/
def specProjectName (c : BuildConfig) : String :=
  let b := (winBasename c.projectPath).data
  let afterDot := b.reverse.takeWhile (fun ch => ch != '.')
  if afterDot.length = b.length then String.mk b
  else
    let keep := b.take (b.length - afterDot.length - 1)
    if keep = [] then String.mk b else String.mk keep

/-- C8 counterexample: for project path `C:\Proj\Game.txt` the source's
`getProjectName` keeps the `.txt` extension (only a `.uproject` suffix is
ever stripped), while the spec's "basename with its extension stripped"
would give `Game`. -/
theorem getProjectName_nonuproject_extension :
    getProjectName
      ⟨"C:\\UE\\Engine\\Binaries\\Win64\\UnrealEditor.exe", "C:\\Proj\\Game.txt", "Development"⟩
      = "Game.txt"
  ∧ specProjectName
      ⟨"C:\\UE\\Engine\\Binaries\\Win64\\UnrealEditor.exe", "C:\\Proj\\Game.txt", "Development"⟩
      = "Game"
  ∧ ("Game.txt" : String) ≠ "Game" := by
  refine ⟨by decide, by decide, by decide⟩

/-- C8 (amended): `getProjectName` is the basename of the project path
with a `.uproject` suffix stripped (when the basename properly ends in
it); basenames with any other extension are returned unchanged;
`getSolutionPath` joins the project directory with that name plus `.sln`;
and on `C:\Proj\Game.uproject` they yield `Game` and `C:\Proj\Game.sln`. -/
theorem projectName_solutionPath_characterization (c : BuildConfig) :
    ((".uproject".data.isSuffixOf (winBasename c.projectPath).data = true) →
      ((winBasename c.projectPath).data ≠ ".uproject".data) →
      getProjectName c =
        String.mk ((winBasename c.projectPath).data.take
          ((winBasename c.projectPath).data.length - 9)))
  ∧ ((".uproject".data.isSuffixOf (winBasename c.projectPath).data = false) →
      getProjectName c = winBasename c.projectPath)
  ∧ getSolutionPath c = winJoin (getProjectDir c) (getProjectName c ++ ".sln")
  ∧ getProjectName cfg0 = "Game"
  ∧ getSolutionPath cfg0 = "C:\\Proj\\Game.sln" := by
  refine ⟨?_, ?_, rfl, by decide, by decide⟩
  · intro hs hne
    unfold getProjectName winBasenameExt
    rw [if_pos ⟨by decide, hne, by exact_mod_cast hs⟩]
    rfl
  · intro hs
    simp [getProjectName, winBasenameExt, hs]

/-- Witness for C8 (amended): the `.uproject` suffix of `cfg0`'s basename
is stripped. -/
theorem projectName_solutionPath_characterization_witness :
    getProjectName cfg0 =
      String.mk ((winBasename cfg0.projectPath).data.take
        ((winBasename cfg0.projectPath).data.length - 9)) :=
  (projectName_solutionPath_characterization cfg0).1 (by decide) (by decide)

/-- C5 counterexample: with the flavor configured as `Shipping`, the
generate-project-files invocation still passes `Development` as the third
positional argument — `_generateProjectFiles` hard-codes the flavor. -/
theorem generate_args_flavor_counterexample :
    (generateSolution allPaths noFail runOk cfgShip idleBM).actions =
      [Act.unlink "C:\\Proj\\Game.sln",
       Act.execBat "C:\\UE\\Engine\\Build\\BatchFiles\\Build.bat"
         ["GameEditor", "Win64", "Development", "-Project=\"C:\\Proj\\Game.uproject\"",
          "-WaitMutex", "-FromMsBuild", "-architecture=x64", "-GenerateProjectFiles"]
         "C:\\Proj"]
  ∧ cfgShip.buildConfiguration = "Shipping"
  ∧ ("Development" : String) ≠ "Shipping" := by
  refine ⟨by decide, by decide, by decide⟩

/-- C5 (amended): every build-script invocation uses the argument shape
`<projectName>Editor <platform> <flavor> -Project="<path>" -WaitMutex
-FromMsBuild -architecture=x64` (with `-GenerateProjectFiles` appended in
generate mode), but only the compile-mode invocations pass the configured
flavor as the third argument; the generate-project-files invocation
always passes `Development`. -/
theorem build_script_args_flavor (ex : String → Bool) (unlE : String → Option String)
    (run : ProcRun) (c : BuildConfig) (stB : BMState) (stD : DMState)
    (hB : stB.isBuilding = false) (hD : stD.isDebugging = false)
    (hv : (validateConfig ex c).valid = true)
    (hul : ∀ p, unlE p = none) (hbat : ex (getUBTPath c) = true) :
    (generateSolution ex unlE run c stB).actions =
      (if ex (getSolutionPath c) then [Act.unlink (getSolutionPath c)] else [])
        ++ [Act.execBat (getUBTPath c)
             [getProjectName c ++ "Editor", "Win64", "Development",
              "-Project=\"" ++ c.projectPath ++ "\"", "-WaitMutex", "-FromMsBuild",
              "-architecture=x64", "-GenerateProjectFiles"]
             (getProjectDir c)]
  ∧ (startDebug ex run c stD).actions.head? =
      some (Act.execBat (getUBTPath c)
        [getProjectName c ++ "Editor", "Win64", c.buildConfiguration,
         "-Project=\"" ++ c.projectPath ++ "\"", "-WaitMutex", "-FromMsBuild",
         "-architecture=x64"]
        (getProjectDir c)) := by
  constructor
  · cases hpo : (bmExecuteProcess run).2 <;>
      simp [generateSolution, genModeArgs, hB, hv, hul, hbat, hpo] <;>
      split_ifs <;> simp
  · cases hpo : (dmExecuteProcess run).2 <;>
      simp [startDebug, buildModeArgs, hD, hv, hbat, hpo] <;>
      split_ifs <;> simp

/-- Witness for C5 (amended): the compile invocation of `startDebug` on
the `Shipping` configuration passes `Shipping` as the third argument. -/
theorem build_script_args_flavor_witness :
    (startDebug allPaths runOk cfgShip idleDM).actions.head? =
      some (Act.execBat (getUBTPath cfgShip)
        [getProjectName cfgShip ++ "Editor", "Win64", cfgShip.buildConfiguration,
         "-Project=\"" ++ cfgShip.projectPath ++ "\"", "-WaitMutex", "-FromMsBuild",
         "-architecture=x64"]
        (getProjectDir cfgShip)) :=
  (build_script_args_flavor allPaths noFail runOk cfgShip idleBM idleDM rfl rfl
    (by decide) (fun _ => rfl) (by decide)).2

/-- C10: a clean run never sets the child-process handle — at every
`await`ed removal point of `cleanSolution` the handle is still `none`, so
`cancelBuild` invoked there is a complete no-op and cannot cancel the
clean; and the handle is still unset in the final state. -/
theorem clean_run_process_handle_unset (ex : String → Bool) (rmE : String → Option String)
    (c : BuildConfig) (st : BMState) (h : st.buildProcess = none) :
    (∀ s ∈ cleanAwaitStates ex c st, s.buildProcess = none ∧ cancelBuild s = ⟨s, [], [], []⟩)
  ∧ (cleanSolution ex rmE c st).state.buildProcess = none := by
  constructor
  · intro s hs
    unfold cleanAwaitStates at hs
    split_ifs at hs <;> simp only [h, List.mem_append, List.mem_ite_nil_right,
      List.mem_singleton, List.not_mem_nil, or_false, false_or] at hs
    all_goals have hsr : s = ⟨true, none⟩ := by tauto
    all_goals (subst hsr; exact ⟨rfl, rfl⟩)
  · rcases hI : rmE (winJoin (getProjectDir c) "Intermediate") with _ | eI <;>
    rcases hBn : rmE (winJoin (getProjectDir c) "Binaries") with _ | eB <;>
    rcases hS : rmE (winJoinList [getProjectDir c, "Saved", "StagedBuilds"]) with _ | eS <;>
      simp [cleanSolution, hI, hBn, hS] <;> split_ifs <;> simp_all

/-- Witness for C10 on a concrete idle run in which all three directories
exist. -/
theorem clean_run_process_handle_unset_witness :
    (cleanSolution allPaths noFail cfg0 idleBM).state.buildProcess = none :=
  (clean_run_process_handle_unset allPaths noFail cfg0 idleBM rfl).2

/-- C4: `regenerateSolution` performs clean (the three artifact-directory
removals), then solution-file deletion, then the generate-project-files
invocation, then the compile invocation, in that order; and the sequence
aborts at the first failing step, leaving the later steps unperformed:
shown for a failing first removal, a failing solution-file deletion, and
a failing generate step. -/
theorem regenerateSolution_sequence_aborts_on_first_failure
    (ex : String → Bool) (rmE unlE : String → Option String)
    (genRun buildRun : ProcRun) (c : BuildConfig) (st : BMState)
    (hB : st.isBuilding = false) (hv : (validateConfig ex c).valid = true) :
    ((∀ p, rmE p = none) → (∀ p, unlE p = none) → ex (getUBTPath c) = true →
      genRun.exitCode = 0 → buildRun.exitCode = 0 →
      (regenerateSolution ex rmE unlE genRun buildRun c st).actions =
        (if ex (winJoin (getProjectDir c) "Intermediate")
          then [Act.rmDir (winJoin (getProjectDir c) "Intermediate")] else [])
        ++ (if ex (winJoin (getProjectDir c) "Binaries")
          then [Act.rmDir (winJoin (getProjectDir c) "Binaries")] else [])
        ++ (if ex (winJoinList [getProjectDir c, "Saved", "StagedBuilds"])
          then [Act.rmDir (winJoinList [getProjectDir c, "Saved", "StagedBuilds"])] else [])
        ++ (if ex (getSolutionPath c) then [Act.unlink (getSolutionPath c)] else [])
        ++ [Act.execBat (getUBTPath c) (genModeArgs c) (getProjectDir c),
            Act.execBat (getUBTPath c) (buildModeArgs c) (getProjectDir c)]
      ∧ (regenerateSolution ex rmE unlE genRun buildRun c st).notify = ["重新生成解决方案完成"])
  ∧ (∀ e, ex (winJoin (getProjectDir c) "Intermediate") = true →
      rmE (winJoin (getProjectDir c) "Intermediate") = some e →
      (regenerateSolution ex rmE unlE genRun buildRun c st).actions =
        [Act.rmDir (winJoin (getProjectDir c) "Intermediate")]
      ∧ (regenerateSolution ex rmE unlE genRun buildRun c st).notify = ["操作失败! 查看输出面板了解详情"])
  ∧ (∀ e, (∀ p, rmE p = none) → ex (getSolutionPath c) = true →
      unlE (getSolutionPath c) = some e →
      (regenerateSolution ex rmE unlE genRun buildRun c st).actions =
        (if ex (winJoin (getProjectDir c) "Intermediate")
          then [Act.rmDir (winJoin (getProjectDir c) "Intermediate")] else [])
        ++ (if ex (winJoin (getProjectDir c) "Binaries")
          then [Act.rmDir (winJoin (getProjectDir c) "Binaries")] else [])
        ++ (if ex (winJoinList [getProjectDir c, "Saved", "StagedBuilds"])
          then [Act.rmDir (winJoinList [getProjectDir c, "Saved", "StagedBuilds"])] else [])
        ++ [Act.unlink (getSolutionPath c)]
      ∧ (regenerateSolution ex rmE unlE genRun buildRun c st).notify = ["操作失败! 查看输出面板了解详情"])
  ∧ ((∀ p, rmE p = none) → (∀ p, unlE p = none) → ex (getUBTPath c) = true →
      genRun.exitCode ≠ 0 →
      (regenerateSolution ex rmE unlE genRun buildRun c st).actions =
        (if ex (winJoin (getProjectDir c) "Intermediate")
          then [Act.rmDir (winJoin (getProjectDir c) "Intermediate")] else [])
        ++ (if ex (winJoin (getProjectDir c) "Binaries")
          then [Act.rmDir (winJoin (getProjectDir c) "Binaries")] else [])
        ++ (if ex (winJoinList [getProjectDir c, "Saved", "StagedBuilds"])
          then [Act.rmDir (winJoinList [getProjectDir c, "Saved", "StagedBuilds"])] else [])
        ++ (if ex (getSolutionPath c) then [Act.unlink (getSolutionPath c)] else [])
        ++ [Act.execBat (getUBTPath c) (genModeArgs c) (getProjectDir c)]
      ∧ (regenerateSolution ex rmE unlE genRun buildRun c st).notify = ["操作失败! 查看输出面板了解详情"]) := by
  refine ⟨?_, ?_, ?_, ?_⟩
  · intro hrm hul hbat hg hb2
    simp [regenerateSolution, bmExecuteProcess, hB, hv, hrm, hul, hbat, hg, hb2] <;>
      split_ifs <;> simp
  · intro e hiex hirm
    simp [regenerateSolution, hB, hv, hiex, hirm]
  · intro e hrm hslnex hslnerr
    simp [regenerateSolution, hB, hv, hrm, hslnex, hslnerr] <;>
      split_ifs <;> simp
  · intro hrm hul hbat hg
    simp [regenerateSolution, bmExecuteProcess, hB, hv, hrm, hul, hbat, hg] <;>
      split_ifs <;> simp

/-- Witness for C4: the all-successful concrete run performs the six
actions in order and reports success. -/
theorem regenerateSolution_sequence_witness :
    (regenerateSolution allPaths noFail noFail runOk runOk cfg0 idleBM).notify =
      ["重新生成解决方案完成"] :=
  ((regenerateSolution_sequence_aborts_on_first_failure allPaths noFail noFail
      runOk runOk cfg0 idleBM rfl (by decide)).1
    (fun _ => rfl) (fun _ => rfl) (by decide) rfl rfl).2

/-- Executable decidability of `<` on `Rat` (the library instance is
stated via a rewrite and does not reduce under `decide`; the order on
`Rat` is definitionally `Rat.blt`). -/
instance : DecidableRel (fun a b : Rat => a < b) := fun a b =>
  inferInstanceAs (Decidable (a.blt b = true))

/-- Executable decidability of `≤` on `Rat`. -/
instance : DecidableRel (fun a b : Rat => a ≤ b) := fun a b =>
  inferInstanceAs (Decidable (b.blt a = false))

/-- `progressValues` distributes over append. -/
lemma progressValues_append (a b : List Msg) :
    progressValues (a ++ b) = progressValues a ++ progressValues b := by
  simp [progressValues, List.filterMap_append]

/-- A `bmChunk` step either posts nothing and keeps `currentProgress`, or
posts exactly the new, strictly larger `currentProgress`. -/
lemma bmChunk_vals (cp : Rat) (t : String) (e : Nat) :
    (progressValues (bmChunk cp t e).2 = [] ∧ (bmChunk cp t e).1 = cp) ∨
    (progressValues (bmChunk cp t e).2 = [(bmChunk cp t e).1] ∧ cp < (bmChunk cp t e).1) := by
  simp only [bmChunk]
  split_ifs with h1 h2 h3
  · right; exact ⟨by simp [progressValues], h1⟩
  · right; exact ⟨by simp [progressValues], h3⟩
  · left; exact ⟨rfl, rfl⟩
  · left; exact ⟨rfl, rfl⟩

/-- The progress values posted during one `BuildManager._executeProcess`
run form a strictly increasing chain above the starting value. -/
lemma bmProcessEvents_chain (evs : List OutEvent) :
    ∀ cp : Rat, List.Chain (· < ·) cp (progressValues (bmProcessEvents evs cp)) := by
  induction evs with
  | nil => intro cp; simp [bmProcessEvents, progressValues]
  | cons ev rest ih =>
    intro cp
    cases ev with
    | stderr t => simpa [bmProcessEvents] using ih cp
    | stdout t e =>
      simp only [bmProcessEvents, progressValues_append]
      rcases bmChunk_vals cp t e with ⟨h1, h2⟩ | ⟨h1, h2⟩
      · rw [h1, h2]; simpa using ih cp
      · rw [h1, List.singleton_append]; exact List.Chain.cons h2 (ih _)

/-- A strict chain from a base value yields a strict chain on the list. -/
lemma chain_lt_chain' {a : Rat} {l : List Rat} (h : List.Chain (· < ·) a l) :
    List.Chain' (· < ·) l := by
  cases l with
  | nil => simp
  | cons b rest => exact (List.chain_cons.mp h).2

/-- C1 counterexample: a successful `generateSolution` run whose child
process emits a `5%` marker posts the progress sequence `35, 5, 60` —
the raw marker regresses below the earlier checkpoint, and the sequence
ends at 60, not 100, despite success. -/
theorem generateSolution_progress_regresses :
    progressValues (generateSolution allPaths noFail runMarks5 cfg0 idleBM).msgs = [35, 5, 60]
  ∧ Msg.buildSuccess ∈ (generateSolution allPaths noFail runMarks5 cfg0 idleBM).msgs
  ∧ ¬ List.Chain' (· ≤ ·)
      (progressValues (generateSolution allPaths noFail runMarks5 cfg0 idleBM).msgs)
  ∧ (progressValues (generateSolution allPaths noFail runMarks5 cfg0 idleBM).msgs).getLast?
      ≠ some 100 := by
  have h1 : progressValues (generateSolution allPaths noFail runMarks5 cfg0 idleBM).msgs
      = [35, 5, 60] := by decide
  refine ⟨h1, by decide, ?_, by decide⟩
  rw [h1]
  intro h
  have hle := (List.chain'_cons.mp h).1
  norm_num at hle

/-- C1 (amended): the progress sequence of a successful `cleanSolution`
run is non-decreasing and ends at exactly 100; and within any single
`BuildManager._executeProcess` invocation the posted values are strictly
increasing.  Across the steps of `generateSolution`/`regenerateSolution`,
however, raw marker values interleave with fixed checkpoints and may
regress, and `generateSolution` ends at 60 on success. -/
theorem clean_progress_monotone_and_exec_progress_increasing
    (ex : String → Bool) (rmE : String → Option String)
    (c : BuildConfig) (st : BMState) (run : ProcRun)
    (hB : st.isBuilding = false) (hv : (validateConfig ex c).valid = true)
    (hrm : ∀ p, rmE p = none) :
    (List.Chain' (· ≤ ·) (progressValues (cleanSolution ex rmE c st).msgs)
      ∧ (progressValues (cleanSolution ex rmE c st).msgs).getLast? = some 100
      ∧ Msg.buildSuccess ∈ (cleanSolution ex rmE c st).msgs)
  ∧ List.Chain' (· < ·) (progressValues (bmProcessEvents run.events 0)) := by
  constructor
  · simp only [cleanSolution, hB, hv, hrm]
    norm_num
    split_ifs <;>
      exact ⟨by simp [progressValues, List.chain'_cons, List.chain'_singleton]; try decide,
             by simp [progressValues],
             by simp⟩
  · exact chain_lt_chain' (bmProcessEvents_chain run.events 0)

/-- Witness for C1 (amended) on a concrete successful clean run. -/
theorem clean_progress_monotone_witness :
    Msg.buildSuccess ∈ (cleanSolution allPaths noFail cfg0 idleBM).msgs :=
  (clean_progress_monotone_and_exec_progress_increasing allPaths noFail cfg0 idleBM
    runOk rfl (by decide) (fun _ => rfl)).1.2.2
